import Mathlib

/-!
Shallow embedding of the BitCodeFixer extension core (`src/extension.ts`):
the response code-block extractor, the fix-prompt builder, the single-file
and batch fix flows, and the AI commit flow.  External collaborators
(editor host, completion transport, git) are modelled as explicit
parameters; the in-repo logic is translated function by function.
-/

namespace CodeFixer

/-- The backtick character (U+0060). -/
def backtick : Char := Char.ofNat 96

/-- JavaScript whitespace as used by `String.prototype.trim` (ASCII part). -/
def isJsWs (c : Char) : Bool :=
  c = ' ' || c = '\t' || c = '\n' || c = '\r' || c = Char.ofNat 11 || c = Char.ofNat 12

/-- JS `s.trim()` on the character list: drop whitespace from both ends. -/
def trimChars (l : List Char) : List Char :=
  List.rdropWhile isJsWs (List.dropWhile isJsWs l)

/-- JS `s.trim()`. -/
def jsTrim (s : String) : String := ⟨trimChars s.data⟩

/-- The fence delimiter: three backticks. -/
def fence : List Char := "```".data

/-- After the opening three backticks, the regex
`(?:typescript|javascript|ts|js)?\n` tries the four tags in alternation
order, then the untagged variant; each must be followed by a newline.
Returns the characters after the newline. -/
def matchTag : List Char → Option (List Char)
  | 't' :: 'y' :: 'p' :: 'e' :: 's' :: 'c' :: 'r' :: 'i' :: 'p' :: 't' :: '\n' :: r => some r
  | 'j' :: 'a' :: 'v' :: 'a' :: 's' :: 'c' :: 'r' :: 'i' :: 'p' :: 't' :: '\n' :: r => some r
  | 't' :: 's' :: '\n' :: r => some r
  | 'j' :: 's' :: '\n' :: r => some r
  | '\n' :: r => some r
  | _ => none

/-- Match the opener ```` ```(?:typescript|javascript|ts|js)?\n ```` at the
head of `l`; on success return the characters after the newline. -/
def matchOpener (l : List Char) : Option (List Char) :=
  if l.take 3 = fence then matchTag (l.drop 3) else none

/-- Lazy capture `([\s\S]*?)` up to the first closing ```` ``` ````:
the characters before the first occurrence of the fence, or `none` when
no fence occurs (the regex then fails at this start position). -/
def takeUntilFence : List Char → Option (List Char)
  | [] => none
  | c :: cs =>
    if (c :: cs).take 3 = fence then some []
    else (takeUntilFence cs).map (c :: ·)

/-- Leftmost match of ``/```(?:typescript|javascript|ts|js)?\n([\s\S]*?)```/``:
scan start positions left to right; at the first position where the opener
matches and a closing fence follows, return the captured interior. -/
def findFirstBlock : List Char → Option (List Char)
  | [] => none
  | c :: cs =>
    match matchOpener (c :: cs) with
    | some rest =>
      match takeUntilFence rest with
      | some interior => some interior
      | none => findFirstBlock cs
    | none => findFirstBlock cs

/-- `extractCodeFromResponse` from `src/extension.ts`: if the code-block
regex matches and the captured group is non-empty (JS truthiness of
`match[1]`), return the captured interior trimmed; otherwise return the
whole response trimmed. -/
def extractCodeFromResponse (response : String) : String :=
  match findFirstBlock response.data with
  | some interior => if interior.isEmpty then jsTrim response else ⟨trimChars interior⟩
  | none => jsTrim response

/-- Whether a list of characters contains the three-backtick fence marker
anywhere (used to state the fallback property). -/
def containsFence : List Char → Bool
  | [] => false
  | c :: cs => if (c :: cs).take 3 = fence then true else containsFence cs

/-- A zero-based source position, as in `vscode.Position`. -/
structure Position where
  line : Nat
  character : Nat
deriving DecidableEq, Repr

/-- A source range, as in `vscode.Range`. -/
structure Range where
  start : Position
  «end» : Position
deriving DecidableEq, Repr

/-- A diagnostic supplied by the editor host: a message and a range. -/
structure Diagnostic where
  message : String
  range : Range
deriving DecidableEq, Repr

/-- The line emitted for one diagnostic inside the prompt. -/
def errorLine (e : Diagnostic) : String :=
  "Error: " ++ e.message ++ " at line " ++ toString (e.range.start.line + 1)

/-- `buildFixPrompt` from `src/extension.ts`: maps each diagnostic to a
record, then formats the template literal embedding the file path, one
`Error:` line per diagnostic joined by newlines, the source fenced as a
typescript block, and the trailing instruction. -/
def buildFixPrompt (code : String) (errors : List Diagnostic) (filePath : String) : String :=
  let errorMessages := errors.map (fun error => (error.message, error.range.start, error.range.«end»))
  "Fix any issues in the following code from file path " ++ filePath ++ ":\n\n" ++
    String.intercalate "\n"
      (errorMessages.map (fun err => "Error: " ++ err.1 ++ " at line " ++ toString (err.2.1.line + 1))) ++
    "\n\n```typescript\n" ++ code ++ "\n```\n\n\nReturn the fixed code wrapped in a code block with the language specified (typescript or javascript)."

/-- `fixCodeWithAI` from `src/extension.ts`.  The completion transport is a
parameter mapping the submitted prompt to either the accumulated streamed
response text or a transport error.  The inner body throws
`Failed to extract code from AI response` when the extracted code is empty
(JS falsiness); the surrounding catch wraps every failure message as
`Failed to get AI response: ...`. -/
def fixCodeWithAI (code : String) (errors : List Diagnostic) (filePath : String)
    (transport : String → Except String String) : Except String String :=
  let prompt := buildFixPrompt code errors filePath
  let result : Except String String :=
    match transport prompt with
    | Except.error e => Except.error e
    | Except.ok fullResponse =>
      let fixedCode := extractCodeFromResponse fullResponse
      if fixedCode = "" then Except.error "Failed to extract code from AI response"
      else Except.ok fixedCode
  match result with
  | Except.ok s => Except.ok s
  | Except.error msg => Except.error ("Failed to get AI response: " ++ msg)

/-- The document-content effect of `fixCurrentFile` from `src/extension.ts`:
with no diagnostics the flow returns early; otherwise the full text range is
replaced by the fixed code only when `fixCodeWithAI` succeeds, and any error
is caught and surfaced without touching the document. -/
def fixCurrentFileContent (content : String) (diags : List Diagnostic) (fileName : String)
    (transport : String → Except String String) : String :=
  if diags.isEmpty then content
  else
    match fixCodeWithAI content diags fileName transport with
    | Except.ok fixedCode => fixedCode
    | Except.error _ => content

/-- A candidate workspace file for the batch flow: its path, its current
content, and the diagnostics the editor host reports for it. -/
structure WorkspaceFile where
  fsPath : String
  content : String
  diagnostics : List Diagnostic
deriving DecidableEq, Repr

/-- `fixAllFiles` from `src/extension.ts`: sequentially over the candidate
files, skip a file with no diagnostics; otherwise call `fixCodeWithAI`, on
success replace the file content and increment `fixedCount`, on failure log
and continue.  Returns the final contents (in file order) and the count. -/
def fixAllFiles (files : List WorkspaceFile) (transport : String → Except String String) :
    List String × Nat :=
  files.foldl
    (fun (acc : List String × Nat) file =>
      if file.diagnostics.isEmpty then (acc.1 ++ [file.content], acc.2)
      else
        match fixCodeWithAI file.content file.diagnostics file.fsPath transport with
        | Except.ok fixedCode => (acc.1 ++ [fixedCode], acc.2 + 1)
        | Except.error _ => (acc.1 ++ [file.content], acc.2))
    ([], 0)

/-- Whether the per-file fix request succeeds for `file`. -/
def fixOk (transport : String → Except String String) (file : WorkspaceFile) : Bool :=
  match fixCodeWithAI file.content file.diagnostics file.fsPath transport with
  | Except.ok _ => true
  | Except.error _ => false

/-- The final content of one batch file. -/
def finalContent (transport : String → Except String String) (file : WorkspaceFile) : String :=
  if file.diagnostics.isEmpty then file.content
  else
    match fixCodeWithAI file.content file.diagnostics file.fsPath transport with
    | Except.ok fixedCode => fixedCode
    | Except.error _ => file.content

/-- Outputs of the git queries issued by `getStagedChanges`, modelling the
external VCS collaborator. -/
structure GitQueries where
  isRepo : Bool
  statusPorcelain : String
  diffCachedNameOnly : String
  diffCached : String
  lsFilesOthers : String
deriving DecidableEq, Repr

/-- `getStagedChanges` from `src/extension.ts`: checks workspace, repo,
`git status --porcelain`, `git diff --cached --name-only`, then
`git diff --cached`, substituting the untracked/new file listing when the
cached diff body is empty.  Every thrown message is wrapped by the catch as
`获取暂存区更改失败: ...`. -/
def getStagedChanges (ws : Option String) (g : GitQueries) : Except String String :=
  match ws with
  | none => Except.error ("获取暂存区更改失败: " ++ "没有打开的工作区")
  | some wsPath =>
    if g.isRepo = false then
      Except.error ("获取暂存区更改失败: " ++ "当前目录不是一个git仓库\n当前工作目录: " ++ wsPath)
    else if g.statusPorcelain = "" then
      Except.error ("获取暂存区更改失败: " ++ "没有暂存的更改")
    else if g.diffCachedNameOnly = "" then
      Except.error ("获取暂存区更改失败: " ++ "没有暂存的文件")
    else if g.diffCached = "" then
      if g.lsFilesOthers ≠ "" then
        Except.ok ("新文件:\n" ++ String.intercalate "\n" (g.lsFilesOthers.splitOn "\n"))
      else Except.error ("获取暂存区更改失败: " ++ "无法获取暂存区的更改内容")
    else Except.ok g.diffCached

/-- `generateCommitMessage` from `src/extension.ts`.  `reply` models the
non-streaming completion outcome: a transport error, or
`choices[0]?.message?.content` (`none` = absent).  An absent or empty
message throws; the catch wraps every failure as `生成commit消息失败: ...`. -/
def generateCommitMessage (changes : String) (reply : Except String (Option String)) :
    Except String String :=
  let userMessage := "Generate a commit message for these changes:\n\n" ++ changes
  let result : Except String String :=
    match reply with
    | Except.error e => Except.error e
    | Except.ok none => Except.error "AI返回的消息为空"
    | Except.ok (some m) => if m = "" then Except.error "AI返回的消息为空" else Except.ok m
  match userMessage, result with
  | _, Except.ok s => Except.ok s
  | _, Except.error msg => Except.error ("生成commit消息失败: " ++ msg)

deriving instance DecidableEq for Except

/-- Observable outcome of `executeGitCommit`: the commit-message temp file
after the run (`none` = absent/deleted), the temp-file content as seen by
the `git commit -F` invocation (`none` = git never invoked), and the
result. -/
structure CommitExecution where
  tempFileAfter : Option String
  messageFileSeenByGit : Option String
  result : Except String Unit
deriving DecidableEq, Repr

/-- `executeGitCommit` from `src/extension.ts`: check the workspace, write
the message to the temp file, run `git commit -F <tempFile> --edit`, and
unlink the temp file.  The unlink statement comes after the commit
invocation inside the `try`, so it only runs when the commit succeeds; the
catch rethrows `Failed to execute git commit`. -/
def executeGitCommit (ws : Option String) (message : String) (commitSucceeds : Bool)
    (temp0 : Option String) : CommitExecution :=
  match ws with
  | none => ⟨temp0, none, Except.error "Failed to execute git commit"⟩
  | some _ =>
    let written : Option String := some message
    if commitSucceeds then ⟨none, written, Except.ok ()⟩
    else ⟨written, written, Except.error "Failed to execute git commit"⟩

/-- Observable outcome of one `aiCommit` run: how many completion-transport
invocations happened, the error message surfaced to the user (if any), and
the commit-message temp file after the run. -/
structure AiCommitResult where
  completionCalls : Nat
  uiError : Option String
  tempFileAfter : Option String
deriving DecidableEq, Repr

/-- `aiCommit` from `src/extension.ts`: sequentially collect staged
changes, generate the commit message (the only completion-transport
invocation in this flow), then execute the commit; any failure is caught
and shown. -/
def aiCommit (ws : Option String) (g : GitQueries) (reply : Except String (Option String))
    (commitSucceeds : Bool) (temp0 : Option String) : AiCommitResult :=
  match getStagedChanges ws g with
  | Except.error e => ⟨0, some e, temp0⟩
  | Except.ok changes =>
    match generateCommitMessage changes reply with
    | Except.error e => ⟨1, some e, temp0⟩
    | Except.ok msg =>
      let ex := executeGitCommit ws msg commitSucceeds temp0
      match ex.result with
      | Except.ok _ => ⟨1, none, ex.tempFileAfter⟩
      | Except.error e => ⟨1, some e, ex.tempFileAfter⟩

/-- The five tag options the regex alternation accepts (the last is the
untagged form). -/
def isFenceTag (tag : String) : Prop :=
  tag = "typescript" ∨ tag = "javascript" ∨ tag = "ts" ∨ tag = "js" ∨ tag = ""

instance (tag : String) : Decidable (isFenceTag tag) := by
  unfold isFenceTag
  infer_instance

/-! ### Helper lemmas about the extractor -/

theorem fence_eq : fence = [backtick, backtick, backtick] := by decide

theorem take3_bbb (post : List Char) :
    (backtick :: backtick :: backtick :: post).take 3 = fence := by
  rw [fence_eq]
  rfl

theorem fence_append_cons (post : List Char) :
    fence ++ post = backtick :: backtick :: backtick :: post := by
  rw [fence_eq]
  rfl

theorem takeUntilFence_cons (c : Char) (cs : List Char) :
    takeUntilFence (c :: cs)
      = if (c :: cs).take 3 = fence then some [] else (takeUntilFence cs).map (c :: ·) :=
  rfl

theorem containsFence_cons (c : Char) (cs : List Char) :
    containsFence (c :: cs)
      = if (c :: cs).take 3 = fence then true else containsFence cs :=
  rfl

theorem findFirstBlock_cons (c : Char) (cs : List Char) :
    findFirstBlock (c :: cs)
      = match matchOpener (c :: cs) with
        | some rest =>
          match takeUntilFence rest with
          | some interior => some interior
          | none => findFirstBlock cs
        | none => findFirstBlock cs :=
  rfl

theorem take3_cons_ne {c : Char} (l : List Char) (h : c ≠ backtick) :
    (c :: l).take 3 ≠ fence := by
  intro hEq
  rw [fence_eq] at hEq
  simp only [List.take_succ_cons, List.cons.injEq] at hEq
  exact h hEq.1

theorem matchOpener_cons_ne {c : Char} (l : List Char) (h : c ≠ backtick) :
    matchOpener (c :: l) = none := by
  rw [matchOpener, if_neg (take3_cons_ne l h)]

theorem findFirstBlock_cons_none {c : Char} {cs : List Char}
    (h : matchOpener (c :: cs) = none) :
    findFirstBlock (c :: cs) = findFirstBlock cs := by
  rw [findFirstBlock_cons, h]

theorem findFirstBlock_cons_closed {c : Char} {cs rest interior : List Char}
    (h1 : matchOpener (c :: cs) = some rest) (h2 : takeUntilFence rest = some interior) :
    findFirstBlock (c :: cs) = some interior := by
  rw [findFirstBlock_cons, h1]
  simp [h2]

theorem findFirstBlock_append (pre s : List Char) (h : ∀ c ∈ pre, c ≠ backtick) :
    findFirstBlock (pre ++ s) = findFirstBlock s := by
  induction pre with
  | nil => rfl
  | cons c cs ih =>
    rw [List.cons_append,
      findFirstBlock_cons_none (matchOpener_cons_ne _ (h c (by simp)))]
    exact ih (fun x hx => h x (by simp [hx]))

theorem takeUntilFence_closed (int post : List Char) (h : ∀ c ∈ int, c ≠ backtick) :
    takeUntilFence (int ++ fence ++ post) = some int := by
  induction int with
  | nil =>
    rw [List.nil_append, fence_append_cons, takeUntilFence_cons, if_pos (take3_bbb _)]
  | cons c cs ih =>
    rw [List.cons_append, List.cons_append, takeUntilFence_cons,
      if_neg (take3_cons_ne _ (h c (by simp))), ih (fun x hx => h x (by simp [hx]))]
    rfl

theorem matchOpener_tag (tag : String) (h : isFenceTag tag) (r : List Char) :
    matchOpener ("```".data ++ tag.data ++ ('\n' :: r)) = some r := by
  rcases h with h | h | h | h | h <;> subst h <;> rfl

theorem findFirstBlock_first (tag pre int post : String) (htag : isFenceTag tag)
    (hpre : ∀ c ∈ pre.data, c ≠ backtick) (hint : ∀ c ∈ int.data, c ≠ backtick) :
    findFirstBlock (pre ++ "```" ++ tag ++ "\n" ++ int ++ "```" ++ post).data
      = some int.data := by
  have hdata : (pre ++ "```" ++ tag ++ "\n" ++ int ++ "```" ++ post).data
      = pre.data ++ ("```".data ++ tag.data ++ ('\n' :: (int.data ++ fence ++ post.data))) := by
    simp [String.data_append, fence]
  rw [hdata, findFirstBlock_append _ _ hpre]
  have hO := matchOpener_tag tag htag (int.data ++ fence ++ post.data)
  have hT := takeUntilFence_closed int.data post.data hint
  have hcons : "```".data ++ tag.data ++ ('\n' :: (int.data ++ fence ++ post.data))
      = backtick :: ("``".data ++ tag.data ++ ('\n' :: (int.data ++ fence ++ post.data))) := by
    rw [show ("```".data : List Char) = backtick :: "``".data from by decide]
    rfl
  rw [hcons] at hO ⊢
  exact findFirstBlock_cons_closed hO hT

theorem containsFence_eq_true_iff (l : List Char) :
    containsFence l = true ↔ ∃ u v, l = u ++ fence ++ v := by
  constructor
  · intro h
    induction l with
    | nil => exact absurd h (by simp [containsFence])
    | cons c cs ih =>
      rw [containsFence_cons] at h
      by_cases h3 : (c :: cs).take 3 = fence
      · exact ⟨[], (c :: cs).drop 3, by rw [List.nil_append, ← h3, List.take_append_drop]⟩
      · rw [if_neg h3] at h
        obtain ⟨u, v, huv⟩ := ih h
        exact ⟨c :: u, v, by simp [huv]⟩
  · rintro ⟨u, v, rfl⟩
    induction u with
    | nil =>
      rw [List.nil_append, fence_append_cons, containsFence_cons, if_pos (take3_bbb _)]
    | cons a u ih =>
      rw [List.cons_append, List.cons_append, containsFence_cons]
      by_cases h3 : ((a :: (u ++ fence ++ v)).take 3 = fence)
      · rw [if_pos h3]
      · rw [if_neg h3]
        exact ih

theorem findFirstBlock_eq_none_of (l : List Char) (h : containsFence l = false) :
    findFirstBlock l = none := by
  induction l with
  | nil => rfl
  | cons c cs ih =>
    rw [containsFence_cons] at h
    by_cases h3 : (c :: cs).take 3 = fence
    · rw [if_pos h3] at h
      exact absurd h (by simp)
    · rw [if_neg h3] at h
      rw [findFirstBlock_cons_none (by rw [matchOpener, if_neg h3])]
      exact ih h

/-! ### Helper lemmas about trimming -/

theorem dropWhile_fixed_of_pref {α : Type} {p : α → Bool} {B A : List α}
    (hBA : B <+: A) (hA : List.dropWhile p A = A) : List.dropWhile p B = B := by
  cases B with
  | nil => rfl
  | cons b bs =>
    obtain ⟨t, ht⟩ := hBA
    have hb : p b = false := by
      rw [← ht, List.cons_append, List.dropWhile_cons] at hA
      by_cases hpb : p b = true
      · exfalso
        rw [if_pos hpb] at hA
        have hle := (List.dropWhile_sublist p (l := bs ++ t)).length_le
        rw [hA] at hle
        simp at hle
      · simpa using hpb
    rw [List.dropWhile_cons, if_neg (by simp [hb])]

theorem trimChars_idem (l : List Char) : trimChars (trimChars l) = trimChars l := by
  unfold trimChars
  rw [dropWhile_fixed_of_pref ( List.rdropWhile_prefix isJsWs (List.dropWhile isJsWs l))
      (List.dropWhile_idempotent isJsWs l)]
  exact List.rdropWhile_idempotent isJsWs (List.dropWhile isJsWs l)

theorem jsTrim_idem (s : String) : jsTrim (jsTrim s) = jsTrim s :=
  congrArg String.mk (trimChars_idem s.data)

theorem containsFence_trimChars (l : List Char) (h : containsFence l = false) :
    containsFence (trimChars l) = false := by
  by_contra hcf
  have htrue : containsFence (trimChars l) = true := by
    cases hval : containsFence (trimChars l) with
    | false => exact absurd hval hcf
    | true => rfl
  obtain ⟨u, v, huv⟩ := (containsFence_eq_true_iff _).mp htrue
  obtain ⟨a, ha⟩ := List.rdropWhile_prefix isJsWs (List.dropWhile isJsWs l)
  obtain ⟨b, hb⟩ := List.dropWhile_suffix (l := l) isJsWs
  have : l = (b ++ u) ++ fence ++ (v ++ a) := by
    rw [← hb, ← ha]
    show b ++ (trimChars l ++ a) = b ++ u ++ fence ++ (v ++ a)
    rw [huv]
    simp
  rw [(containsFence_eq_true_iff l).mpr ⟨_, _, this⟩] at h
  exact absurd h (by simp)

theorem trimChars_ne_nil {l : List Char} (c : Char) (hc : c ∈ l)
    (hw : isJsWs c = false) : trimChars l ≠ [] := by
  intro h
  unfold trimChars at h
  rw [List.rdropWhile_eq_nil_iff] at h
  have hl := List.takeWhile_append_dropWhile (p := isJsWs) (l := l)
  rw [← hl] at hc
  rcases List.mem_append.mp hc with hm | hm
  · exact absurd (List.mem_takeWhile_imp hm) (by simp [hw])
  · exact absurd (h c hm) (by simp [hw])

theorem extract_trim_fixed (s : String) :
    jsTrim (extractCodeFromResponse s) = extractCodeFromResponse s := by
  unfold extractCodeFromResponse
  cases findFirstBlock s.data with
  | none => exact jsTrim_idem s
  | some interior =>
    by_cases hi : interior.isEmpty
    · simp only [hi, if_pos]
      exact jsTrim_idem s
    · simp only [hi]
      rw [if_neg (by simp [hi])]
      exact congrArg String.mk (trimChars_idem interior)

theorem extract_first_block (tag pre int post : String) (htag : isFenceTag tag)
    (hpre : ∀ c ∈ pre.data, c ≠ backtick) (hint : ∀ c ∈ int.data, c ≠ backtick)
    (hne : int ≠ "") :
    extractCodeFromResponse (pre ++ "```" ++ tag ++ "\n" ++ int ++ "```" ++ post)
      = jsTrim int := by
  unfold extractCodeFromResponse
  rw [findFirstBlock_first tag pre int post htag hpre hint]
  have : int.data.isEmpty = false := by
    cases hd : int.data with
    | nil => exact absurd (String.ext hd) hne
    | cons a as => rfl
  simp [this, jsTrim]

/-! ### Helper lemmas about the batch flow -/

theorem fixAllFiles_foldl (transport : String → Except String String)
    (files : List WorkspaceFile) :
    ∀ (acc1 : List String) (n : Nat),
      List.foldl
        (fun (acc : List String × Nat) file =>
          if file.diagnostics.isEmpty then (acc.1 ++ [file.content], acc.2)
          else
            match fixCodeWithAI file.content file.diagnostics file.fsPath transport with
            | Except.ok fixedCode => (acc.1 ++ [fixedCode], acc.2 + 1)
            | Except.error _ => (acc.1 ++ [file.content], acc.2))
        (acc1, n) files
      = (acc1 ++ files.map (finalContent transport),
         n + files.countP (fun f => !f.diagnostics.isEmpty && fixOk transport f)) := by
  induction files with
  | nil => intro acc1 n; simp
  | cons f fs ih =>
    intro acc1 n
    rw [List.foldl_cons]
    by_cases hd : f.diagnostics.isEmpty
    · rw [if_pos hd, ih]
      simp [finalContent, hd, List.countP_cons, fixOk]
    · rw [if_neg hd]
      cases hfix : fixCodeWithAI f.content f.diagnostics f.fsPath transport with
      | ok c =>
        rw [ih]
        have h1 : finalContent transport f = c := by
          simp [finalContent, hd, hfix]
        have h2 : (!f.diagnostics.isEmpty && fixOk transport f) = true := by
          simp [fixOk, hfix, hd]
        simp [h1, h2, List.countP_cons]
        omega
      | error e =>
        rw [ih]
        have h1 : finalContent transport f = f.content := by
          simp [finalContent, hd, hfix]
        have h2 : (!f.diagnostics.isEmpty && fixOk transport f) = false := by
          simp [fixOk, hfix]
        simp [h1, h2, List.countP_cons]

theorem fixAllFiles_eq (files : List WorkspaceFile)
    (transport : String → Except String String) :
    fixAllFiles files transport
      = (files.map (finalContent transport),
         files.countP (fun f => !f.diagnostics.isEmpty && fixOk transport f)) := by
  unfold fixAllFiles
  rw [fixAllFiles_foldl]
  simp

theorem countP_and_split {α : Type} (p q : α → Bool) (l : List α) :
    l.countP (fun f => p f && q f) + l.countP (fun f => p f && !q f) = l.countP p := by
  induction l with
  | nil => simp
  | cons a l ih =>
    by_cases hp : p a <;> by_cases hq : q a <;>
      simp [List.countP_cons, hp, hq] <;> omega

/-! ### Claim C1 -/

/-- Claim C1, counterexample: the input `"```typescript\n```"` contains a
fenced code block tagged `typescript`, whose interior is the empty string,
yet `extractCodeFromResponse` does not return that interior trimmed (the
empty string): because `match[1]` is falsy, it returns the whole input,
fence markers included. -/
theorem extract_block_c1_counterexample :
    extractCodeFromResponse "```typescript\n```" = "```typescript\n```" ∧
      ("```typescript\n```" : String) ≠ "" := by
  constructor
  · decide
  · decide

/-- Claim C1 (amended): for every input containing a fenced code block
tagged `typescript`, `javascript`, `ts`, or `js`, or untagged, whose
interior is non-empty, where the block is the first regex match (no
backtick occurs before its opener or inside its interior),
`extractCodeFromResponse` returns exactly the interior text of that block
with surrounding whitespace trimmed, regardless of which tag (or none) is
present. -/
theorem extract_block_c1 (tag pre int post : String) (htag : isFenceTag tag)
    (hpre : ∀ c ∈ pre.data, c ≠ backtick) (hint : ∀ c ∈ int.data, c ≠ backtick)
    (hne : int ≠ "") :
    extractCodeFromResponse (pre ++ "```" ++ tag ++ "\n" ++ int ++ "```" ++ post)
      = jsTrim int :=
  extract_first_block tag pre int post htag hpre hint hne

theorem extract_block_c1_witness :
    isFenceTag "ts" ∧ (∀ c ∈ ("answer: " : String).data, c ≠ backtick) ∧
      (∀ c ∈ (" const x: number = 1; " : String).data, c ≠ backtick) ∧
      (" const x: number = 1; " : String) ≠ "" ∧
      extractCodeFromResponse
          ("answer: " ++ "```" ++ "ts" ++ "\n" ++ " const x: number = 1; " ++ "```" ++ " bye")
        = jsTrim " const x: number = 1; " ∧
      jsTrim " const x: number = 1; " = "const x: number = 1;" :=
  ⟨by decide, by decide, by decide, by decide,
    extract_block_c1 "ts" "answer: " " const x: number = 1; " " bye"
      (by decide) (by decide) (by decide) (by decide),
    by decide⟩

/-! ### Claim C3 -/

/-- Claim C3: for every input string containing no fence marker (no
occurrence of three consecutive backticks), `extractCodeFromResponse`
returns that string trimmed (the fallback path; the Lean embedding is
total, so no exception is possible), and it is idempotent on such strings:
applying it to its own output returns the output unchanged. -/
theorem extract_no_fence_c3 (s : String) (h : containsFence s.data = false) :
    extractCodeFromResponse s = jsTrim s ∧
      extractCodeFromResponse (extractCodeFromResponse s) = extractCodeFromResponse s := by
  have h1 : findFirstBlock s.data = none := findFirstBlock_eq_none_of _ h
  have he : extractCodeFromResponse s = jsTrim s := by
    unfold extractCodeFromResponse
    rw [h1]
  refine ⟨he, ?_⟩
  have h2 : containsFence (jsTrim s).data = false := containsFence_trimChars s.data h
  have h3 : findFirstBlock (jsTrim s).data = none := findFirstBlock_eq_none_of _ h2
  rw [he]
  unfold extractCodeFromResponse
  rw [h3]
  exact jsTrim_idem s

theorem extract_no_fence_c3_witness :
    containsFence ("  const x = 1; // no fences  " : String).data = false ∧
      (extractCodeFromResponse "  const x = 1; // no fences  "
          = jsTrim "  const x = 1; // no fences  " ∧
        extractCodeFromResponse (extractCodeFromResponse "  const x = 1; // no fences  ")
          = extractCodeFromResponse "  const x = 1; // no fences  ") :=
  ⟨by decide, extract_no_fence_c3 "  const x = 1; // no fences  " (by decide)⟩

/-! ### Claim C9 -/

/-- Claim C9: when the first matching fenced block has an empty interior,
`extractCodeFromResponse` does not return the empty interior: it falls
through to the fallback and returns the entire input trimmed, fence
markers included, so the result is non-empty. -/
theorem extract_empty_block_c9 (tag pre post : String) (htag : isFenceTag tag)
    (hpre : ∀ c ∈ pre.data, c ≠ backtick) :
    extractCodeFromResponse (pre ++ "```" ++ tag ++ "\n" ++ "```" ++ post)
        = jsTrim (pre ++ "```" ++ tag ++ "\n" ++ "```" ++ post) ∧
      jsTrim (pre ++ "```" ++ tag ++ "\n" ++ "```" ++ post) ≠ "" := by
  have hfold : pre ++ "```" ++ tag ++ "\n" ++ "" ++ "```" ++ post
      = pre ++ "```" ++ tag ++ "\n" ++ "```" ++ post := by
    rw [String.append_empty]
  have hblk := findFirstBlock_first tag pre "" post htag hpre (by simp)
  rw [hfold] at hblk
  constructor
  · unfold extractCodeFromResponse
    rw [hblk]
    rfl
  · intro hemp
    have hdata : trimChars (pre ++ "```" ++ tag ++ "\n" ++ "```" ++ post).data = [] := by
      have := congrArg String.data hemp
      exact this
    have hmem : backtick ∈ (pre ++ "```" ++ tag ++ "\n" ++ "```" ++ post).data := by
      rw [show (pre ++ "```" ++ tag ++ "\n" ++ "```" ++ post).data
          = pre.data ++ ("```".data ++ (tag.data ++ ("\n".data ++ ("```".data ++ post.data))))
        from by simp [String.data_append]]
      refine List.mem_append_right _ (List.mem_append_left _ ?_)
      decide
    exact trimChars_ne_nil backtick hmem (by decide) hdata

theorem extract_empty_block_c9_witness :
    isFenceTag "typescript" ∧ (∀ c ∈ ("note " : String).data, c ≠ backtick) ∧
      (extractCodeFromResponse ("note " ++ "```" ++ "typescript" ++ "\n" ++ "```" ++ "!")
          = jsTrim ("note " ++ "```" ++ "typescript" ++ "\n" ++ "```" ++ "!") ∧
        jsTrim ("note " ++ "```" ++ "typescript" ++ "\n" ++ "```" ++ "!") ≠ "") :=
  ⟨by decide, by decide,
    extract_empty_block_c9 "typescript" "note " "!" (by decide) (by decide)⟩

/-! ### Claim C10 -/

/-- Claim C10, counterexample: the input contains two fenced blocks
matching the extractor's pattern, but the first has an empty interior, so
the extractor falls back to returning the whole input trimmed — which is
not the first block's trimmed interior (the empty string), and the later
block's text `later` does appear in the result. -/
theorem extract_two_blocks_c10_counterexample :
    extractCodeFromResponse "```ts\n```\n```js\nlater\n```"
        = "```ts\n```\n```js\nlater\n```" ∧
      ("```ts\n```\n```js\nlater\n```" : String) ≠ "" ∧
      (∃ u v, (extractCodeFromResponse "```ts\n```\n```js\nlater\n```").data
          = u ++ "later".data ++ v) :=
  ⟨by decide, by decide, ⟨"```ts\n```\n```js\n".data, "\n```".data, by decide⟩⟩

/-- Claim C10 (amended): for every input string containing two or more
fenced code blocks matching the extractor's pattern, where the first block
is the first regex match and has a non-empty interior,
`extractCodeFromResponse` returns the trimmed interior of only the first
(leftmost) block; the result does not depend on anything after the first
block's closing fence, so text in later blocks never appears in it. -/
theorem extract_two_blocks_c10 (pre tag1 int1 mid tag2 int2 post : String)
    (htag1 : isFenceTag tag1) (htag2 : isFenceTag tag2)
    (hpre : ∀ c ∈ pre.data, c ≠ backtick) (hint1 : ∀ c ∈ int1.data, c ≠ backtick)
    (hne : int1 ≠ "") :
    extractCodeFromResponse
        (pre ++ "```" ++ tag1 ++ "\n" ++ int1 ++ "```"
          ++ (mid ++ "```" ++ tag2 ++ "\n" ++ int2 ++ "```" ++ post))
      = jsTrim int1 :=
  extract_first_block tag1 pre int1
    (mid ++ "```" ++ tag2 ++ "\n" ++ int2 ++ "```" ++ post) htag1 hpre hint1 hne

theorem extract_two_blocks_c10_witness :
    isFenceTag "js" ∧ isFenceTag "ts" ∧
      (∀ c ∈ ("first " : String).data, c ≠ backtick) ∧
      (∀ c ∈ ("AAA\n" : String).data, c ≠ backtick) ∧ ("AAA\n" : String) ≠ "" ∧
      extractCodeFromResponse
          ("first " ++ "```" ++ "js" ++ "\n" ++ "AAA\n" ++ "```"
            ++ (" then " ++ "```" ++ "ts" ++ "\n" ++ "BBB\n" ++ "```" ++ " end"))
        = jsTrim "AAA\n" ∧
      jsTrim "AAA\n" = "AAA" :=
  ⟨by decide, by decide, by decide, by decide, by decide,
    extract_two_blocks_c10 "first " "js" "AAA\n" " then " "ts" "BBB\n" " end"
      (by decide) (by decide) (by decide) (by decide) (by decide),
    by decide⟩

/-! ### Claim C2 -/

/-- Claim C2: for every non-empty sequence of diagnostics, `buildFixPrompt`
produces a prompt containing exactly one `Error:` line per diagnostic (the
error section is precisely the per-diagnostic lines joined by newlines, in
the order the diagnostics were supplied — no sorting, no de-duplication),
each line beginning with `"Error: "` and printing
`range.start.line + 1` as the line number.  The function is a pure Lean
function, so it returns the same output for identical inputs by
construction. -/
theorem buildFixPrompt_c2 (code filePath : String) (errors : List Diagnostic)
    (h : errors ≠ []) :
    buildFixPrompt code errors filePath
        = "Fix any issues in the following code from file path " ++ filePath ++ ":\n\n" ++
            String.intercalate "\n" (errors.map errorLine) ++
            "\n\n```typescript\n" ++ code ++ "\n```\n\n\nReturn the fixed code wrapped in a code block with the language specified (typescript or javascript)." ∧
      (errors.map errorLine).length = errors.length ∧
      ∀ e ∈ errors, ∃ rest,
        errorLine e = "Error: " ++ rest ∧
          rest = e.message ++ " at line " ++ toString (e.range.start.line + 1) := by
  refine ⟨?_, by simp, ?_⟩
  · simp only [buildFixPrompt, List.map_map]
    rfl
  · intro e _
    refine ⟨e.message ++ " at line " ++ toString (e.range.start.line + 1), ?_, rfl⟩
    unfold errorLine
    rw [String.append_assoc, String.append_assoc, String.append_assoc,
      ← String.append_assoc e.message]

theorem buildFixPrompt_c2_witness :
    ([⟨"Unexpected any", ⟨⟨4, 0⟩, ⟨4, 3⟩⟩⟩] : List Diagnostic) ≠ [] ∧
      (buildFixPrompt "const x: any = 1" [⟨"Unexpected any", ⟨⟨4, 0⟩, ⟨4, 3⟩⟩⟩] "/tmp/a.ts"
          = "Fix any issues in the following code from file path " ++ "/tmp/a.ts" ++ ":\n\n" ++
              String.intercalate "\n"
                (([⟨"Unexpected any", ⟨⟨4, 0⟩, ⟨4, 3⟩⟩⟩] : List Diagnostic).map errorLine) ++
              "\n\n```typescript\n" ++ "const x: any = 1" ++ "\n```\n\n\nReturn the fixed code wrapped in a code block with the language specified (typescript or javascript)." ∧
        (([⟨"Unexpected any", ⟨⟨4, 0⟩, ⟨4, 3⟩⟩⟩] : List Diagnostic).map errorLine).length
            = ([⟨"Unexpected any", ⟨⟨4, 0⟩, ⟨4, 3⟩⟩⟩] : List Diagnostic).length ∧
        ∀ e ∈ ([⟨"Unexpected any", ⟨⟨4, 0⟩, ⟨4, 3⟩⟩⟩] : List Diagnostic), ∃ rest,
          errorLine e = "Error: " ++ rest ∧
            rest = e.message ++ " at line " ++ toString (e.range.start.line + 1)) ∧
      errorLine ⟨"Unexpected any", ⟨⟨4, 0⟩, ⟨4, 3⟩⟩⟩ = "Error: Unexpected any at line 5" :=
  ⟨by decide,
    buildFixPrompt_c2 "const x: any = 1" "/tmp/a.ts"
      [⟨"Unexpected any", ⟨⟨4, 0⟩, ⟨4, 3⟩⟩⟩] (by decide),
    by decide⟩

/-! ### Claim C4 -/

/-- Claim C4: if the completion response yields an extracted result that is
empty (equivalently, whitespace-only before the final trim — the
extractor's output is itself trim-fixed), `fixCodeWithAI` fails with an
error instead of returning a fix, and in that case the apply step is never
invoked: the single-file flow leaves the document content unchanged. -/
theorem fixCodeWithAI_empty_c4 (resp content filePath : String)
    (diags : List Diagnostic)
    (h : jsTrim (extractCodeFromResponse resp) = "") :
    fixCodeWithAI content diags filePath (fun _ => Except.ok resp)
        = Except.error ("Failed to get AI response: "
            ++ "Failed to extract code from AI response") ∧
      fixCurrentFileContent content diags filePath (fun _ => Except.ok resp) = content := by
  have hx : extractCodeFromResponse resp = "" :=
    (extract_trim_fixed resp).symm.trans h
  have hfix : fixCodeWithAI content diags filePath (fun _ => Except.ok resp)
      = Except.error ("Failed to get AI response: "
          ++ "Failed to extract code from AI response") := by
    unfold fixCodeWithAI
    simp [hx]
  refine ⟨hfix, ?_⟩
  unfold fixCurrentFileContent
  by_cases hd : diags.isEmpty
  · rw [if_pos hd]
  · rw [if_neg hd, hfix]

theorem fixCodeWithAI_empty_c4_witness :
    jsTrim (extractCodeFromResponse "```ts\n \n```") = "" ∧
      (fixCodeWithAI "const y = 2" [⟨"msg", ⟨⟨0, 0⟩, ⟨0, 1⟩⟩⟩] "/tmp/b.ts"
            (fun _ => Except.ok "```ts\n \n```")
          = Except.error ("Failed to get AI response: "
              ++ "Failed to extract code from AI response") ∧
        fixCurrentFileContent "const y = 2" [⟨"msg", ⟨⟨0, 0⟩, ⟨0, 1⟩⟩⟩] "/tmp/b.ts"
            (fun _ => Except.ok "```ts\n \n```")
          = "const y = 2") :=
  ⟨by decide,
    fixCodeWithAI_empty_c4 "```ts\n \n```" "const y = 2"
      "/tmp/b.ts" [⟨"msg", ⟨⟨0, 0⟩, ⟨0, 1⟩⟩⟩] (by decide)⟩

/-! ### Claim C5 -/

/-- Claim C5, counterexample: when the VCS commit invocation fails, the
transient commit-message file written by `executeGitCommit` is NOT deleted
— the unlink statement sits after the commit invocation inside the `try`
block, so the failure jumps straight to the catch.  The claim's "deleted
regardless of outcome" predicts `none` here. -/
theorem executeGitCommit_c5_counterexample :
    (executeGitCommit (some "/ws") "fix: add foo" false none).tempFileAfter
        = some "fix: add foo" ∧
      (executeGitCommit (some "/ws") "fix: add foo" false none).result
        = Except.error "Failed to execute git commit" ∧
      (some "fix: add foo" : Option String) ≠ none := by
  refine ⟨rfl, rfl, by decide⟩

/-- Claim C5 (amended): the commit invocation always receives the temp
file holding exactly the generated message; the transient file is deleted
after the commit invocation only when the commit succeeds, while on a
failing commit invocation `executeGitCommit` throws and the transient file
is left in place. -/
theorem executeGitCommit_c5 (ws message : String) (temp0 : Option String) :
    ((executeGitCommit (some ws) message true temp0).messageFileSeenByGit = some message ∧
      (executeGitCommit (some ws) message true temp0).tempFileAfter = none ∧
      (executeGitCommit (some ws) message true temp0).result = Except.ok ()) ∧
    ((executeGitCommit (some ws) message false temp0).messageFileSeenByGit = some message ∧
      (executeGitCommit (some ws) message false temp0).tempFileAfter = some message ∧
      (executeGitCommit (some ws) message false temp0).result
          = Except.error "Failed to execute git commit") :=
  ⟨⟨rfl, rfl, rfl⟩, ⟨rfl, rfl, rfl⟩⟩

/-! ### Claim C6 -/

/-- Claim C6: in the commit flow, when there are zero staged files (the
`git diff --cached --name-only` output is empty) and zero untracked files,
`getStagedChanges` fails with one of the two no-staged-changes errors, and
the failure occurs before any completion-endpoint call: the `aiCommit` run
performs zero completion-transport invocations. -/
theorem aiCommit_no_staged_c6 (ws : String) (g : GitQueries)
    (reply : Except String (Option String)) (commitSucceeds : Bool)
    (temp0 : Option String) (hRepo : g.isRepo = true)
    (hStaged : g.diffCachedNameOnly = "") (hUntracked : g.lsFilesOthers = "") :
    (∃ e, getStagedChanges (some ws) g = Except.error e ∧
        (e = "获取暂存区更改失败: " ++ "没有暂存的更改" ∨
          e = "获取暂存区更改失败: " ++ "没有暂存的文件")) ∧
      (aiCommit (some ws) g reply commitSucceeds temp0).completionCalls = 0 := by
  by_cases hs : g.statusPorcelain = ""
  · have hg : getStagedChanges (some ws) g
        = Except.error ("获取暂存区更改失败: " ++ "没有暂存的更改") := by
      unfold getStagedChanges
      rw [hRepo]
      simp [hs]
    refine ⟨⟨_, hg, Or.inl rfl⟩, ?_⟩
    unfold aiCommit
    rw [hg]
  · have hg : getStagedChanges (some ws) g
        = Except.error ("获取暂存区更改失败: " ++ "没有暂存的文件") := by
      unfold getStagedChanges
      rw [hRepo]
      simp [hs, hStaged]
    refine ⟨⟨_, hg, Or.inr rfl⟩, ?_⟩
    unfold aiCommit
    rw [hg]

theorem aiCommit_no_staged_c6_witness :
    (⟨true, " M a.ts", "", "", ""⟩ : GitQueries).isRepo = true ∧
      (⟨true, " M a.ts", "", "", ""⟩ : GitQueries).diffCachedNameOnly = "" ∧
      (⟨true, " M a.ts", "", "", ""⟩ : GitQueries).lsFilesOthers = "" ∧
      ((∃ e, getStagedChanges (some "/ws") ⟨true, " M a.ts", "", "", ""⟩ = Except.error e ∧
          (e = "获取暂存区更改失败: " ++ "没有暂存的更改" ∨
            e = "获取暂存区更改失败: " ++ "没有暂存的文件")) ∧
        (aiCommit (some "/ws") ⟨true, " M a.ts", "", "", ""⟩
            (Except.ok (some "feat: x")) true none).completionCalls = 0) :=
  ⟨by decide, by decide, by decide,
    aiCommit_no_staged_c6 "/ws" ⟨true, " M a.ts", "", "", ""⟩
      (Except.ok (some "feat: x")) true none (by decide) (by decide) (by decide)⟩

/-! ### Claim C7 -/

/-- Claim C7: the batch fix flow processes the candidate files
sequentially — the final contents are the per-file results in input order,
one entry per candidate — and the reported fixed count equals exactly
`M - K`, where `M` is the number of candidates with at least one
diagnostic and `K` the number of those whose fix request fails, regardless
of where in the sequence the failing files occur (the count is a function
of the per-file predicates only, not of positions). -/
theorem fixAllFiles_count_c7 (files : List WorkspaceFile)
    (transport : String → Except String String) :
    (fixAllFiles files transport).1 = files.map (finalContent transport) ∧
      (fixAllFiles files transport).1.length = files.length ∧
      (fixAllFiles files transport).2
        = files.countP (fun f => !f.diagnostics.isEmpty)
            - files.countP (fun f => !f.diagnostics.isEmpty && !fixOk transport f) := by
  rw [fixAllFiles_eq]
  refine ⟨rfl, by simp, ?_⟩
  have hsplit := countP_and_split (fun f => !f.diagnostics.isEmpty)
    (fun f => fixOk transport f) files
  simp only []
  omega

/-! ### Claim C8 -/

/-- Claim C8: in both the single-file and the batch fix flows, any failure
after the prompt is submitted but before a valid (non-empty) extraction is
obtained — i.e. any run where `fixCodeWithAI` returns an error — leaves
the target file's content unchanged: the full-text replacement happens
only on success. -/
theorem fix_failure_unchanged_c8 (content filePath : String)
    (diags : List Diagnostic) (transport : String → Except String String) (e : String)
    (h : fixCodeWithAI content diags filePath transport = Except.error e)
    (files : List WorkspaceFile) (i : Nat) (hi : i < files.length)
    (hf : fixOk transport files[i] = false) :
    fixCurrentFileContent content diags filePath transport = content ∧
      (fixAllFiles files transport).1[i]? = some files[i].content := by
  constructor
  · unfold fixCurrentFileContent
    by_cases hd : diags.isEmpty
    · rw [if_pos hd]
    · rw [if_neg hd, h]
  · rw [fixAllFiles_eq]
    simp only [List.getElem?_map]
    rw [List.getElem?_eq_getElem hi]
    simp only [Option.map_some']
    have hfin : finalContent transport files[i] = files[i].content := by
      unfold finalContent
      by_cases hd : files[i].diagnostics.isEmpty
      · rw [if_pos hd]
      · rw [if_neg hd]
        unfold fixOk at hf
        cases hfix : fixCodeWithAI files[i].content files[i].diagnostics
            files[i].fsPath transport with
        | ok c => rw [hfix] at hf; simp at hf
        | error er => rfl
    rw [hfin]

theorem fix_failure_unchanged_c8_witness :
    fixCodeWithAI "orig" [⟨"m", ⟨⟨0, 0⟩, ⟨0, 1⟩⟩⟩] "/tmp/c.ts"
        (fun _ => Except.error "boom")
      = Except.error ("Failed to get AI response: " ++ "boom") ∧
    (0 : Nat) < ([⟨"/tmp/c.ts", "orig", [⟨"m", ⟨⟨0, 0⟩, ⟨0, 1⟩⟩⟩]⟩] : List WorkspaceFile).length ∧
    fixOk (fun _ => Except.error "boom")
        (([⟨"/tmp/c.ts", "orig", [⟨"m", ⟨⟨0, 0⟩, ⟨0, 1⟩⟩⟩]⟩] : List WorkspaceFile)[0]) = false ∧
    (fixCurrentFileContent "orig" [⟨"m", ⟨⟨0, 0⟩, ⟨0, 1⟩⟩⟩] "/tmp/c.ts"
          (fun _ => Except.error "boom") = "orig" ∧
      (fixAllFiles [⟨"/tmp/c.ts", "orig", [⟨"m", ⟨⟨0, 0⟩, ⟨0, 1⟩⟩⟩]⟩]
            (fun _ => Except.error "boom")).1[0]?
        = some (([⟨"/tmp/c.ts", "orig", [⟨"m", ⟨⟨0, 0⟩, ⟨0, 1⟩⟩⟩]⟩] : List WorkspaceFile)[0]).content) :=
  ⟨by decide, by decide, by decide,
    fix_failure_unchanged_c8 "orig" "/tmp/c.ts" [⟨"m", ⟨⟨0, 0⟩, ⟨0, 1⟩⟩⟩]
      (fun _ => Except.error "boom") ("Failed to get AI response: " ++ "boom")
      (by decide) [⟨"/tmp/c.ts", "orig", [⟨"m", ⟨⟨0, 0⟩, ⟨0, 1⟩⟩⟩]⟩] 0
      (by decide) (by decide)⟩

end CodeFixer
